import Mathlib

/-!
# Verification of the sequential neural-network training engine

Shallow embedding, in Lean 4, of the parts of the Rust library relevant to the
frozen claims: Conv2D "Same" padding arithmetic, the Dropout layer, the Dense
layer, the BatchIterator, the weight initializers and the tabular data-set
normalization.  Floating-point values are modelled as rationals (`ℚ`) with
total division, machine integers (`u64`) as `ℕ` with truncated subtraction
(so `a - b` over `ℕ` is exactly the `max(0, a - b)` clamp of the source), and
Rust panics / absent cached state as `Option`.
-/

namespace Neuro

/-! ## Conv2D: padding (src/layers/conv2d.rs) -/

/-- The `Padding` enum of `conv2d.rs`. -/
inductive Padding where
  | Same : Padding
  | Valid : Padding
deriving DecidableEq

/-- The four padding amounts, in the order the source stores them:
`padding_size: (u64, u64, u64, u64), // top, right, bottom, left`. -/
structure PadSides where
  top : ℕ
  right : ℕ
  bottom : ℕ
  left : ℕ
deriving DecidableEq

/-- Translation of `Conv2D::compute_padding_size` (conv2d.rs lines 212-238).
`pad_along_h = max((h_out - 1) * stride.0 + kernel_size.0 - height, 0)` over
`u64` is modelled by truncated `ℕ` subtraction, which equals the `max(0, ·)`
clamp.  The fields start at `(0, 0, 0, 0)` and are only written when the
total padding along the axis is nonzero, exactly as in the source. -/
def computePaddingSize (padding : Padding) (kh kw sh sw height width hOut wOut : ℕ) :
    PadSides :=
  match padding with
  | Padding.Same =>
    let padAlongH := (hOut - 1) * sh + kh - height
    let padAlongW := (wOut - 1) * sw + kw - width
    let tb : ℕ × ℕ :=
      if padAlongH ≠ 0 then
        if padAlongH % 2 = 0 then (padAlongH / 2, padAlongH / 2)
        else ((padAlongH - 1) / 2, (padAlongH + 1) / 2)
      else (0, 0)
    let rl : ℕ × ℕ :=
      if padAlongW ≠ 0 then
        if padAlongW % 2 = 0 then (padAlongW / 2, padAlongW / 2)
        else ((padAlongW + 1) / 2, (padAlongW - 1) / 2)
      else (0, 0)
    ⟨tb.1, rl.1, tb.2, rl.2⟩
  | Padding.Valid => ⟨0, 0, 0, 0⟩

/-- Translation of `Conv2D::pad_input` (conv2d.rs lines 241-264) as a function
on pixel coordinates: `pad_top` rows of zeros are joined above the input,
`pad_right` columns after it, `pad_bottom` rows below it and `pad_left`
columns before it, so pixel `(i, j)` of the padded image holds the input
pixel `(i - top, j - left)` when that is in range and `0` otherwise. -/
def padInput (ps : PadSides) (h w : ℕ) (x : ℕ → ℕ → ℚ) : ℕ → ℕ → ℚ :=
  fun i j =>
    if ps.top ≤ i ∧ i < ps.top + h ∧ ps.left ≤ j ∧ j < ps.left + w then
      x (i - ps.top) (j - ps.left)
    else 0

/-! ## BatchIterator (src/data/batch_iterator.rs) -/

/-- The `(batch_size, num_batches)` pair computed by `BatchIterator::new`
(batch_iterator.rs lines 26-31): when `batch_size < num_samples` the number of
batches is `ceil(num_samples / batch_size)` (the source computes it with an
`f64` ceiling; over `ℕ` this is `(n + b - 1) / b`), otherwise a single batch
of all `num_samples` samples. -/
def effectiveParams (numSamples batchSize : ℕ) : ℕ × ℕ :=
  if batchSize < numSamples then (batchSize, (numSamples + batchSize - 1) / batchSize)
  else (numSamples, 1)

/-- Translation of `BatchIterator::new` (batch_iterator.rs lines 21-33): the
`assert_eq!` on the two tensors' fourth (sample) axis is modelled as `none`
(a panic aborts construction), otherwise the iterator's parameters are
computed from the shared sample count. -/
def batchIteratorNew (numSamplesX numSamplesY batchSize : ℕ) : Option (ℕ × ℕ) :=
  if numSamplesX = numSamplesY then some (effectiveParams numSamplesX batchSize)
  else none

/-- Modelled from the spec: `BatchIterator` "partitions a fixed pair of
input/target tensors into mini-batches along the sample axis" and the "last
batch may be smaller" (the `Iterator::next` body is not among the repository
files).  Batch `k` holds the sample indices `[k*bs, min((k+1)*bs, n))`, in
order. -/
def batchOf (numSamples bs k : ℕ) : List ℕ :=
  List.range' (k * bs) (min ((k + 1) * bs) numSamples - k * bs)

/-- One full pass of the iterator: the mini-batches (as lists of sample
indices) produced over a pair of tensors with `numSamples` samples and the
requested `batchSize`. -/
def epochBatches (numSamples batchSize : ℕ) : List (List ℕ) :=
  (List.range (effectiveParams numSamples batchSize).2).map
    (batchOf numSamples (effectiveParams numSamples batchSize).1)

/-! ## Dropout (src/layers/dropout.rs) -/

/-- The state of a `Dropout` layer over inputs of `n` elements: the
configuration scalars of the struct and the cached scaled mask (`grad`),
absent until a training-mode forward pass has run (the design notes model
"not yet computed" cached tensors as explicit optional state). -/
structure DropoutModel (n : ℕ) where
  dropRate : ℚ
  scalingFactor : ℚ
  grad : Option (Fin n → ℚ)
deriving DecidableEq

/-- Translation of `Dropout::new` (dropout.rs lines 33-52): the constructor
panics (`none`) iff `drop_rate < 0 || drop_rate > 1`; otherwise it stores the
drop rate and the inverted-dropout scaling factor `1 / (1 - drop_rate)`. -/
def dropoutNew (n : ℕ) (dropRate : ℚ) : Option (DropoutModel n) :=
  if dropRate < 0 ∨ 1 < dropRate then none
  else some ⟨dropRate, 1 / (1 - dropRate), none⟩

/-- Translation of `Dropout::generate_binomial_mask` (dropout.rs lines 55-59):
element `i` of the mask is `1` when the uniform draw `r i` is strictly
greater than the drop rate (`gt(&random_values, &self.drop_rate)`), else `0`.
`random_uniform` draws lie in `[0, 1)`; the draws are passed in as `r`. -/
def generateBinomialMask (n : ℕ) (dropRate : ℚ) (r : Fin n → ℚ) : Fin n → ℚ :=
  fun i => if dropRate < r i then 1 else 0

/-- Modelled from the spec: the body of `Dropout::compute_activation_mut` is
not among the repository files; per the spec's "Training forward: draw an
independent Bernoulli(keep_prob=1−drop_rate) mask per element per call …;
scale surviving activations by 1/keep_prob (inverted dropout); cache the
mask", the layer caches the scaled mask and returns the input multiplied by
it elementwise. -/
def dropoutForwardTrain (n : ℕ) (m : DropoutModel n) (r x : Fin n → ℚ) :
    DropoutModel n × (Fin n → ℚ) :=
  let g : Fin n → ℚ := fun i => generateBinomialMask n m.dropRate r i * m.scalingFactor
  (⟨m.dropRate, m.scalingFactor, some g⟩, fun i => x i * g i)

/-- Modelled from the spec: the body of `Dropout::compute_dactivation_mut` is
not among the repository files; per the spec's "Backward: multiply upstream
gradient elementwise by the cached scaled mask", with `none` when no mask has
been cached. -/
def dropoutBackward (n : ℕ) (m : DropoutModel n) (dA : Fin n → ℚ) :
    Option (Fin n → ℚ) :=
  m.grad.map (fun g => fun i => dA i * g i)

/-! ## Dense (src/layers/dense.rs) -/

/-- `matmul(&A, &B, MatProp::NONE, MatProp::NONE)` on 2-D tensors. -/
def matMul (m k n : ℕ) (A : Fin m → Fin k → ℚ) (B : Fin k → Fin n → ℚ) :
    Fin m → Fin n → ℚ :=
  fun i j => ∑ l, A i l * B l j

/-- The state of a `Dense` layer with `units` outputs, `fanIn` inputs and a
batch of `batch` samples: weights shaped `[units, fanIn]`, biases `[units]`,
and the two cached tensors that are `None` until `compute_activation_mut`
runs (both `Dense::new`/`with_param` and `Dense::from_hdf5_group` construct
the layer with `linear_activation: None, previous_input: None`). -/
structure DenseModel (units fanIn batch : ℕ) where
  weights : Fin units → Fin fanIn → ℚ
  biases : Fin units → ℚ
  linearActivation : Option (Fin units → Fin batch → ℚ)
  previousInput : Option (Fin fanIn → Fin batch → ℚ)

/-- A `Dense` layer as `Dense::new`/`from_hdf5_group` leave it after
`initialize_parameters` fixed its weights and biases: no cached forward
state. -/
def denseNew (units fanIn batch : ℕ) (W : Fin units → Fin fanIn → ℚ)
    (b : Fin units → ℚ) : DenseModel units fanIn batch :=
  ⟨W, b, none, none⟩

/-- Translation of `Dense::compute_activation` (dense.rs lines 126-129):
`activation.eval(matmul(W, x) + biases)` with the biases broadcast across the
batch and the activation applied elementwise. -/
def denseForward (u f n : ℕ) (d : DenseModel u f n) (act : ℚ → ℚ)
    (x : Fin f → Fin n → ℚ) : Fin u → Fin n → ℚ :=
  fun i j => act (matMul u f n d.weights x i j + d.biases i)

/-- Translation of `Dense::compute_activation_mut` (dense.rs lines 131-141):
same linear algebra as the stateless forward, but the input and the linear
activation are cached for backprop. -/
def denseForwardTrain (u f n : ℕ) (d : DenseModel u f n) (act : ℚ → ℚ)
    (x : Fin f → Fin n → ℚ) : DenseModel u f n × (Fin u → Fin n → ℚ) :=
  let z : Fin u → Fin n → ℚ := fun i j => matMul u f n d.weights x i j + d.biases i
  (⟨d.weights, d.biases, some z, some x⟩, fun i j => act (z i j))

/-- Translation of `Dense::compute_dactivation_mut` (dense.rs lines 144-161):
the two `panic!` branches (no cached linear activation, no cached previous
input) are modelled as `none`; otherwise the call returns
`(dweights, dbiases, dX)` with `dZ = dA ⊙ activation'(Z)`,
`dweights = mean_batches(dZ · Xᵀ)`, `dbiases = mean_batches(dZ)` and
`dX = Wᵀ · dZ`. -/
def denseBackward (u f n : ℕ) (d : DenseModel u f n) (actGrad : ℚ → ℚ)
    (dA : Fin u → Fin n → ℚ) :
    Option ((Fin u → Fin f → ℚ) × (Fin u → ℚ) × (Fin f → Fin n → ℚ)) :=
  match d.linearActivation with
  | some z =>
    let dZ : Fin u → Fin n → ℚ := fun i j => dA i j * actGrad (z i j)
    match d.previousInput with
    | some prev =>
      some (fun i l => (∑ j, dZ i j * prev l j) / (n : ℚ),
            fun i => (∑ j, dZ i j) / (n : ℚ),
            fun l j => ∑ i, d.weights i l * dZ i j)
    | none => none
  | none => none

/-! ## Initializers (src/initializers.rs) -/

/-- The `Initializer` enum of initializers.rs. -/
inductive Initializer where
  | Constant : ℝ → Initializer
  | GlorotNormal : Initializer
  | GlorotUniform : Initializer
  | HeNormal : Initializer
  | HeUniform : Initializer
  | LecunNormal : Initializer
  | LecunUniform : Initializer
  | Normal : Initializer
  | NormalScaled : ℝ → ℝ → Initializer
  | Ones : Initializer
  | Uniform : Initializer
  | UniformBounded : ℝ → ℝ → Initializer
  | Zeros : Initializer

/-- The distribution a `new_tensor` call draws every element of the created
tensor from. -/
inductive DistDesc where
  | constant : ℝ → DistDesc
  | normal : (mean : ℝ) → (std : ℝ) → DistDesc
  | uniform : (lo : ℝ) → (hi : ℝ) → DistDesc

/-- Translation of `Initializer::new_tensor` (initializers.rs lines 76-104) as
the distribution it draws from.  The six scaled variants follow the source
bodies (`scaled_normal(0, std)` / `scaled_uniform(-limit, limit)` with the
source's scale expressions; `LecunUniform`'s visible `3. / fan_in` limit is
completed with `.sqrt()` after the pattern of the other uniform variants).
The remaining variants, whose bodies lie beyond the staged lines, follow
their doc comments in the same file. -/
noncomputable def newTensorDist (init : Initializer) (fanIn fanOut : ℕ) : DistDesc :=
  match init with
  | Initializer.Constant x => DistDesc.constant x
  | Initializer.GlorotNormal =>
      DistDesc.normal 0 (Real.sqrt (2 / ((fanOut : ℝ) + (fanIn : ℝ))))
  | Initializer.GlorotUniform =>
      DistDesc.uniform (-(Real.sqrt (6 / ((fanOut : ℝ) + (fanIn : ℝ)))))
        (Real.sqrt (6 / ((fanOut : ℝ) + (fanIn : ℝ))))
  | Initializer.HeNormal => DistDesc.normal 0 (Real.sqrt (2 / (fanIn : ℝ)))
  | Initializer.HeUniform =>
      DistDesc.uniform (-(Real.sqrt (6 / (fanIn : ℝ)))) (Real.sqrt (6 / (fanIn : ℝ)))
  | Initializer.LecunNormal => DistDesc.normal 0 (Real.sqrt (1 / (fanIn : ℝ)))
  | Initializer.LecunUniform =>
      DistDesc.uniform (-(Real.sqrt (3 / (fanIn : ℝ)))) (Real.sqrt (3 / (fanIn : ℝ)))
  | Initializer.Normal => DistDesc.normal 0 (1 / 100)
  | Initializer.NormalScaled mean std => DistDesc.normal mean std
  | Initializer.Ones => DistDesc.constant 1
  | Initializer.Uniform => DistDesc.uniform (-(1 / 100)) (1 / 100)
  | Initializer.UniformBounded lo hi => DistDesc.uniform lo hi
  | Initializer.Zeros => DistDesc.constant 0

/-! ## TabularDataSet (src/data/tabular_data.rs) -/

/-- `max(train_values, 3)` of `TabularDataSet::normalize`: the per-feature
maximum over the `n + 1` training samples stacked on the fourth axis. -/
def maxFeat (f n : ℕ) (x : Fin f → Fin (n + 1) → ℚ) (i : Fin f) : ℚ :=
  Finset.univ.sup' Finset.univ_nonempty (x i)

/-- `min(train_values, 3)` of `TabularDataSet::normalize`: the per-feature
minimum over the training samples. -/
def minFeat (f n : ℕ) (x : Fin f → Fin (n + 1) → ℚ) (i : Fin f) : ℚ :=
  Finset.univ.inf' Finset.univ_nonempty (x i)

/-- Translation of the training-set update of `TabularDataSet::normalize`
(tabular_data.rs lines 287-304):
`train = (train - max_values) / (max_values - min_values)` with the
statistics broadcast over the sample axis. -/
def normalizeTrain (f n : ℕ) (x : Fin f → Fin (n + 1) → ℚ) :
    Fin f → Fin (n + 1) → ℚ :=
  fun i j => (x i j - maxFeat f n x i) / (maxFeat f n x i - minFeat f n x i)

/-- Translation of the validation/test-set updates of
`TabularDataSet::normalize`: the other set `v` is transformed with the
statistics of the training set `x`. -/
def normalizeWithTrainStats (f n m : ℕ) (x : Fin f → Fin (n + 1) → ℚ)
    (v : Fin f → Fin (m + 1) → ℚ) : Fin f → Fin (m + 1) → ℚ :=
  fun i j => (v i j - maxFeat f n x i) / (maxFeat f n x i - minFeat f n x i)

/-- `(valid_frac * num_samples as f64).floor() as u64` of
`TabularDataSet::from_csv` (tabular_data.rs line 59). -/
def numValidSamples (numSamples : ℕ) (validFrac : ℚ) : ℕ :=
  (⌊validFrac * (numSamples : ℚ)⌋).toNat

/-- `num_samples - num_valid_samples` of `from_csv` (line 60). -/
def numTrainSamples (numSamples : ℕ) (validFrac : ℚ) : ℕ :=
  numSamples - numValidSamples numSamples validFrac

/-- The training tensors built by `TabularDataSet::from_csv` (tabular_data.rs
lines 40-84): `Tensor::shuffle_mut` applies one random permutation of the
sample axis — the same one to inputs and targets — and the training set is
the leading `num_train_samples` samples of the shuffled data
(`index(&x, seqs_train)`).  `shuffle_mut`'s body lives outside the staged
files; the permutation it chose is passed in as `perm`.  Sample `k` of the
returned pair is the raw sample `perm k`; indices past `numSamples` fall back
to the supplied defaults. -/
def fromCsvTrainPair (numSamples : ℕ) (α β : Type) (perm : Equiv.Perm (Fin numSamples))
    (xs : Fin numSamples → α) (ys : Fin numSamples → β) (da : α) (db : β) :
    (ℕ → α) × (ℕ → β) :=
  (fun k => if h : k < numSamples then xs (perm ⟨k, h⟩) else da,
   fun k => if h : k < numSamples then ys (perm ⟨k, h⟩) else db)

/-- Modelled from the spec: `fit` runs, for each of `epochs` epochs, a fresh
`BatchIterator` over the same, unchanged `(x_train, y_train)` pair
(`batches = BatchIterator(train_x, train_y, batch_size)` inside the epoch
loop); no reshuffling happens between epochs.  The sample-index batches each
epoch sees. -/
def fitSampleSchedule (numTrain batchSize epochs : ℕ) : List (List (List ℕ)) :=
  (List.range epochs).map (fun _ => epochBatches numTrain batchSize)

theorem join_full_batches (bs : ℕ) :
    ∀ m, ((List.range m).map (fun k => List.range' (k * bs) bs)).flatten =
      List.range' 0 (m * bs) := by
  intro m
  induction m with
  | zero => simp
  | succ m ih =>
    rw [List.range_succ, List.map_append, List.flatten_append]
    simp only [List.map_cons, List.map_nil, List.flatten_cons, List.flatten_nil,
      List.append_nil, ih]
    have h := List.range'_append_1 0 (m * bs) bs
    simp only [Nat.zero_add] at h
    rw [h, Nat.succ_mul, Nat.add_comm bs (m * bs)]

theorem join_batches (bs : ℕ) :
    ∀ nb n, (nb - 1) * bs < n → n ≤ nb * bs →
      ((List.range nb).map (batchOf n bs)).flatten = List.range n := by
  intro nb n h1 h2
  match nb with
  | 0 => simp at h2; omega
  | nb + 1 =>
    rw [List.range_succ, List.map_append, List.flatten_append]
    simp only [Nat.add_sub_cancel] at h1
    have hfull : ∀ k ∈ List.range nb, batchOf n bs k = List.range' (k * bs) bs := by
      intro k hk
      rw [List.mem_range] at hk
      unfold batchOf
      have hkb : (k + 1) * bs ≤ n := by
        calc (k + 1) * bs ≤ nb * bs := Nat.mul_le_mul_right bs hk
        _ ≤ n := Nat.le_of_lt (by omega)
      rw [Nat.min_eq_left hkb]
      congr 1
      rw [Nat.succ_mul]
      omega
    rw [List.map_congr_left hfull, join_full_batches]
    simp only [List.map_cons, List.map_nil, List.flatten_cons, List.flatten_nil,
      List.append_nil]
    unfold batchOf
    rw [Nat.min_eq_right h2]
    have h := List.range'_append_1 0 (nb * bs) (n - nb * bs)
    simp only [Nat.zero_add] at h
    rw [h, List.range_eq_range']
    congr 1
    omega

/-- The constructor's `(batch_size, num_batches)` pair: the batch size is
positive and at most the requested one, and the batch count is the ceiling
`(n + b - 1) / b` and tightly covers the `n` samples. -/
theorem effectiveParams_spec (n b : ℕ) (hn : 1 ≤ n) (hb : 1 ≤ b) :
    1 ≤ (effectiveParams n b).1 ∧ (effectiveParams n b).1 ≤ b ∧
      (effectiveParams n b).2 = (n + b - 1) / b ∧
      ((effectiveParams n b).2 - 1) * (effectiveParams n b).1 < n ∧
      n ≤ (effectiveParams n b).2 * (effectiveParams n b).1 ∧
      ((effectiveParams n b).1 = b ∨ (effectiveParams n b).2 = 1) := by
  by_cases hcase : b < n
  · have hE : effectiveParams n b = (b, (n + b - 1) / b) := by
      unfold effectiveParams; rw [if_pos hcase]
    rw [hE]
    dsimp only
    have hdm : b * ((n + b - 1) / b) + (n + b - 1) % b = n + b - 1 :=
      Nat.div_add_mod (n + b - 1) b
    have hmod : (n + b - 1) % b < b := Nat.mod_lt _ hb
    have hc1 : (n + b - 1) / b * b = b * ((n + b - 1) / b) := Nat.mul_comm _ _
    have hc2 : ((n + b - 1) / b - 1) * b = (n + b - 1) / b * b - b :=
      Nat.sub_one_mul _ _
    exact ⟨hb, Nat.le_refl b, rfl, by omega, by omega, Or.inl rfl⟩
  · have hE : effectiveParams n b = (n, 1) := by
      unfold effectiveParams; rw [if_neg hcase]
    push_neg at hcase
    rw [hE]
    dsimp only
    have h1 : (n + b - 1) / b = 1 := by
      apply Nat.div_eq_of_lt_le <;> omega
    exact ⟨hn, hcase, h1.symm, by omega, by omega, Or.inr rfl⟩

/-! ## Claim C1 -/

/-- C1, counterexample.  Same-padding a 4×4 input with a 2×2 kernel at
stride 1 to a 4×4 output needs a total padding of 1 (odd) along each axis.
The claim puts the extra odd pixel of the width axis on the leading (left)
side, i.e. `left = (pad_along_w + 1) / 2 = 1`; the code instead sets
`left = 0` and `right = 1`: in the padded image, column 0 still holds input
data while the appended zero column sits at the trailing column 4.  (The
height axis matches the claim: `top = 0`, `bottom = 1`.) -/
theorem conv2d_same_padding_width_leading_cex :
    computePaddingSize Padding.Same 2 2 1 1 4 4 4 4 = ⟨0, 1, 1, 0⟩ ∧
    ((4 - 1) * 1 + 2 - 4) % 2 = 1 ∧
    ¬ (computePaddingSize Padding.Same 2 2 1 1 4 4 4 4).left =
        (((4 - 1) * 1 + 2 - 4) + 1) / 2 ∧
    padInput (computePaddingSize Padding.Same 2 2 1 1 4 4 4 4) 4 4
        (fun _ _ => 1) 0 0 = 1 ∧
    padInput (computePaddingSize Padding.Same 2 2 1 1 4 4 4 4) 4 4
        (fun _ _ => 1) 0 4 = 0 := by
  refine ⟨by decide, by decide, by decide, by decide, by decide⟩

/-- C1 (amended): for every Conv2D layer with Same padding, the total padding
along each axis equals `max(0, (out − 1)·stride + kernel − in)`; an even
total is split equally between the two sides, and an odd total puts the
extra pixel on the trailing side of **both** axes — the bottom for height
and the right for width (not the leading side for width, as claimed). -/
theorem conv2d_same_padding_split (kh kw sh sw h w hOut wOut : ℕ)
    (hh : 1 ≤ hOut) (hw : 1 ≤ wOut) :
    (((computePaddingSize Padding.Same kh kw sh sw h w hOut wOut).top : ℤ) +
        ((computePaddingSize Padding.Same kh kw sh sw h w hOut wOut).bottom : ℤ) =
      max 0 (((hOut : ℤ) - 1) * (sh : ℤ) + (kh : ℤ) - (h : ℤ))) ∧
    (((computePaddingSize Padding.Same kh kw sh sw h w hOut wOut).left : ℤ) +
        ((computePaddingSize Padding.Same kh kw sh sw h w hOut wOut).right : ℤ) =
      max 0 (((wOut : ℤ) - 1) * (sw : ℤ) + (kw : ℤ) - (w : ℤ))) ∧
    (((hOut - 1) * sh + kh - h) % 2 = 0 →
      (computePaddingSize Padding.Same kh kw sh sw h w hOut wOut).top =
        (computePaddingSize Padding.Same kh kw sh sw h w hOut wOut).bottom) ∧
    (((hOut - 1) * sh + kh - h) % 2 = 1 →
      (computePaddingSize Padding.Same kh kw sh sw h w hOut wOut).bottom =
        (computePaddingSize Padding.Same kh kw sh sw h w hOut wOut).top + 1) ∧
    (((wOut - 1) * sw + kw - w) % 2 = 0 →
      (computePaddingSize Padding.Same kh kw sh sw h w hOut wOut).left =
        (computePaddingSize Padding.Same kh kw sh sw h w hOut wOut).right) ∧
    (((wOut - 1) * sw + kw - w) % 2 = 1 →
      (computePaddingSize Padding.Same kh kw sh sw h w hOut wOut).right =
        (computePaddingSize Padding.Same kh kw sh sw h w hOut wOut).left + 1) := by
  have hcast : ∀ a b c d : ℕ, 1 ≤ a →
      (((a - 1) * b + c - d : ℕ) : ℤ) =
        max 0 (((a : ℤ) - 1) * (b : ℤ) + (c : ℤ) - (d : ℤ)) := by
    intro a b c d ha
    have e1 : ((a - 1 : ℕ) : ℤ) = (a : ℤ) - 1 := by omega
    have e2 : (((a - 1) * b : ℕ) : ℤ) = ((a : ℤ) - 1) * (b : ℤ) := by
      rw [Nat.cast_mul, e1]
    omega
  have hcH := hcast hOut sh kh h hh
  have hcW := hcast wOut sw kw w hw
  have hEq : computePaddingSize Padding.Same kh kw sh sw h w hOut wOut =
      ⟨(if (hOut - 1) * sh + kh - h ≠ 0 then
          if ((hOut - 1) * sh + kh - h) % 2 = 0 then
            (((hOut - 1) * sh + kh - h) / 2, ((hOut - 1) * sh + kh - h) / 2)
          else ((((hOut - 1) * sh + kh - h) - 1) / 2, (((hOut - 1) * sh + kh - h) + 1) / 2)
        else (0, 0)).1,
       (if (wOut - 1) * sw + kw - w ≠ 0 then
          if ((wOut - 1) * sw + kw - w) % 2 = 0 then
            (((wOut - 1) * sw + kw - w) / 2, ((wOut - 1) * sw + kw - w) / 2)
          else ((((wOut - 1) * sw + kw - w) + 1) / 2, (((wOut - 1) * sw + kw - w) - 1) / 2)
        else (0, 0)).1,
       (if (hOut - 1) * sh + kh - h ≠ 0 then
          if ((hOut - 1) * sh + kh - h) % 2 = 0 then
            (((hOut - 1) * sh + kh - h) / 2, ((hOut - 1) * sh + kh - h) / 2)
          else ((((hOut - 1) * sh + kh - h) - 1) / 2, (((hOut - 1) * sh + kh - h) + 1) / 2)
        else (0, 0)).2,
       (if (wOut - 1) * sw + kw - w ≠ 0 then
          if ((wOut - 1) * sw + kw - w) % 2 = 0 then
            (((wOut - 1) * sw + kw - w) / 2, ((wOut - 1) * sw + kw - w) / 2)
          else ((((wOut - 1) * sw + kw - w) + 1) / 2, (((wOut - 1) * sw + kw - w) - 1) / 2)
        else (0, 0)).2⟩ := rfl
  rw [hEq]
  split_ifs <;> dsimp only <;>
    exact ⟨by omega, by omega, by omega, by omega, by omega, by omega⟩

/-- Witness for `conv2d_same_padding_split`: kernel 3×3, stride 1, input 5×5,
output 5×5 (total padding 2 along each axis, split 1/1). -/
theorem conv2d_same_padding_split_witness :
    1 ≤ 5 ∧
    ((((computePaddingSize Padding.Same 3 3 1 1 5 5 5 5).top : ℤ) +
        ((computePaddingSize Padding.Same 3 3 1 1 5 5 5 5).bottom : ℤ) =
      max 0 (((5 : ℤ) - 1) * (1 : ℤ) + (3 : ℤ) - (5 : ℤ))) ∧
    (((computePaddingSize Padding.Same 3 3 1 1 5 5 5 5).left : ℤ) +
        ((computePaddingSize Padding.Same 3 3 1 1 5 5 5 5).right : ℤ) =
      max 0 (((5 : ℤ) - 1) * (1 : ℤ) + (3 : ℤ) - (5 : ℤ))) ∧
    (((5 - 1) * 1 + 3 - 5) % 2 = 0 →
      (computePaddingSize Padding.Same 3 3 1 1 5 5 5 5).top =
        (computePaddingSize Padding.Same 3 3 1 1 5 5 5 5).bottom) ∧
    (((5 - 1) * 1 + 3 - 5) % 2 = 1 →
      (computePaddingSize Padding.Same 3 3 1 1 5 5 5 5).bottom =
        (computePaddingSize Padding.Same 3 3 1 1 5 5 5 5).top + 1) ∧
    (((5 - 1) * 1 + 3 - 5) % 2 = 0 →
      (computePaddingSize Padding.Same 3 3 1 1 5 5 5 5).left =
        (computePaddingSize Padding.Same 3 3 1 1 5 5 5 5).right) ∧
    (((5 - 1) * 1 + 3 - 5) % 2 = 1 →
      (computePaddingSize Padding.Same 3 3 1 1 5 5 5 5).right =
        (computePaddingSize Padding.Same 3 3 1 1 5 5 5 5).left + 1)) :=
  ⟨by decide, conv2d_same_padding_split 3 3 1 1 5 5 5 5 (by decide) (by decide)⟩

/-! ## Claims C4 and C5 -/

theorem dropLast_range (m : ℕ) : (List.range m).dropLast = List.range (m - 1) := by
  cases m with
  | zero => rfl
  | succ m => rw [List.range_succ, List.dropLast_concat, Nat.add_sub_cancel]

/-- C4: constructing a `BatchIterator` over tensors with the same sample
count `n ≥ 1` and a requested batch size `b ≥ 1` succeeds, and the pass
yields exactly `⌈n / b⌉ = (n + b - 1) / b` mini-batches whose concatenation
is the sample indices `0, …, n-1` in order (an ordered partition); every
batch except possibly the final one has exactly `b` samples, every batch has
between 1 and `b` samples, and when `b ≥ n` there is exactly one batch
holding all `n` samples. -/
theorem batch_iterator_partition (n b : ℕ) (hn : 1 ≤ n) (hb : 1 ≤ b) :
    batchIteratorNew n n b = some (effectiveParams n b) ∧
    (epochBatches n b).length = (n + b - 1) / b ∧
    (epochBatches n b).flatten = List.range n ∧
    (∀ l ∈ (epochBatches n b).dropLast, l.length = b) ∧
    (∀ l ∈ epochBatches n b, 1 ≤ l.length ∧ l.length ≤ b) ∧
    (n ≤ b → epochBatches n b = [List.range n]) := by
  obtain ⟨hbs1, hbsb, hnb, hlast, hcov, hcase⟩ := effectiveParams_spec n b hn hb
  refine ⟨?_, ?_, ?_, ?_, ?_, ?_⟩
  · unfold batchIteratorNew
    rw [if_pos rfl]
  · unfold epochBatches
    rw [List.length_map, List.length_range, hnb]
  · exact join_batches _ _ _ hlast hcov
  · intro l hl
    unfold epochBatches at hl
    rw [← List.map_dropLast, dropLast_range, List.mem_map] at hl
    obtain ⟨k, hk, hbatch⟩ := hl
    rw [List.mem_range] at hk
    rcases hcase with hbsb' | hnb1
    · rw [← hbatch]
      unfold batchOf
      rw [List.length_range']
      have hk1 : (k + 1) * (effectiveParams n b).1 ≤
          ((effectiveParams n b).2 - 1) * (effectiveParams n b).1 :=
        Nat.mul_le_mul_right _ (by omega)
      have hmin : min ((k + 1) * (effectiveParams n b).1) n =
          (k + 1) * (effectiveParams n b).1 :=
        Nat.min_eq_left (by omega)
      have hsucc : (k + 1) * (effectiveParams n b).1 =
          k * (effectiveParams n b).1 + (effectiveParams n b).1 :=
        Nat.succ_mul _ _
      rw [hmin, hbsb']
      rw [hbsb'] at hsucc
      omega
    · rw [hnb1] at hk
      omega
  · intro l hl
    unfold epochBatches at hl
    rw [List.mem_map] at hl
    obtain ⟨k, hk, hbatch⟩ := hl
    rw [List.mem_range] at hk
    rw [← hbatch]
    unfold batchOf
    rw [List.length_range']
    have hsucc : (k + 1) * (effectiveParams n b).1 =
        k * (effectiveParams n b).1 + (effectiveParams n b).1 :=
      Nat.succ_mul _ _
    have hkb : k * (effectiveParams n b).1 ≤
        ((effectiveParams n b).2 - 1) * (effectiveParams n b).1 :=
      Nat.mul_le_mul_right _ (by omega)
    constructor
    · omega
    · omega
  · intro hnle
    have hE : effectiveParams n b = (n, 1) := by
      unfold effectiveParams
      rw [if_neg (by omega)]
    unfold epochBatches
    rw [hE]
    dsimp only
    rw [List.range_succ, List.range_zero, List.nil_append, List.map_singleton]
    unfold batchOf
    rw [Nat.zero_mul, Nat.one_mul, Nat.min_self, Nat.sub_zero, List.range_eq_range']

/-- Witness for `batch_iterator_partition`: 5 samples, batch size 2
(batches `[0,1]`, `[2,3]`, `[4]`). -/
theorem batch_iterator_partition_witness :
    1 ≤ 5 ∧
    (batchIteratorNew 5 5 2 = some (effectiveParams 5 2) ∧
    (epochBatches 5 2).length = (5 + 2 - 1) / 2 ∧
    (epochBatches 5 2).flatten = List.range 5 ∧
    (∀ l ∈ (epochBatches 5 2).dropLast, l.length = 2) ∧
    (∀ l ∈ epochBatches 5 2, 1 ≤ l.length ∧ l.length ≤ 2) ∧
    (5 ≤ 2 → epochBatches 5 2 = [List.range 5])) :=
  ⟨by decide, batch_iterator_partition 5 2 (by decide) (by decide)⟩

/-- C5: `BatchIterator::new` fails (the `assert_eq!` panics, so no iterator
exists, no mini-batch is ever produced and nothing can recover it) exactly
when the input and target tensors disagree on their fourth-axis sample
count. -/
theorem batch_iterator_new_mismatch_fails (nx ny b : ℕ) :
    batchIteratorNew nx ny b = none ↔ nx ≠ ny := by
  unfold batchIteratorNew
  by_cases h : nx = ny
  · rw [if_pos h]
    simp [h]
  · rw [if_neg h]
    simp [h]

/-! ## Claims C2 and C6 -/

/-- C2: a Dropout layer constructed with `drop_rate = 1` zeroes every element
of the training-mode forward output for every input (the Bernoulli mask is
all-zero because the uniform draws lie in `[0, 1)` and the mask keeps an
element only when its draw strictly exceeds the drop rate), caches the
all-zero scaled mask, and the subsequent backward call succeeds on that
cached mask, returning the all-zero input gradient. -/
theorem dropout_rate_one_zeroes_and_backward_succeeds (n : ℕ) (m : DropoutModel n)
    (r x dA : Fin n → ℚ) (hm : dropoutNew n 1 = some m)
    (hr : ∀ i, 0 ≤ r i ∧ r i < 1) :
    (∀ i, (dropoutForwardTrain n m r x).2 i = 0) ∧
    (dropoutForwardTrain n m r x).1.grad = some (fun _ => 0) ∧
    dropoutBackward n (dropoutForwardTrain n m r x).1 dA = some (fun _ => 0) := by
  have hm' : m = ⟨1, 1 / (1 - 1), none⟩ := by
    unfold dropoutNew at hm
    rw [if_neg (by norm_num)] at hm
    exact (Option.some.inj hm).symm
  subst hm'
  have hmask : ∀ i, generateBinomialMask n 1 r i = 0 := by
    intro i
    unfold generateBinomialMask
    rw [if_neg (by exact not_lt.mpr (le_of_lt (hr i).2))]
  refine ⟨?_, ?_, ?_⟩
  · intro i
    show x i * (generateBinomialMask n 1 r i * (1 / (1 - 1))) = 0
    rw [hmask i]
    ring
  · show some (fun i => generateBinomialMask n 1 r i * (1 / (1 - 1))) =
      some (fun _ => (0 : ℚ))
    congr 1
    funext i
    rw [hmask i]
    ring
  · show some (fun i => dA i * (generateBinomialMask n 1 r i * (1 / (1 - 1)))) =
      some (fun _ => (0 : ℚ))
    congr 1
    funext i
    rw [hmask i]
    ring

/-- Witness for `dropout_rate_one_zeroes_and_backward_succeeds`: one element,
draw 1/2, input 5, upstream gradient 3. -/
theorem dropout_rate_one_witness :
    (dropoutNew 1 1 = some ⟨1, 1 / (1 - 1), none⟩) ∧
    (∀ i : Fin 1, 0 ≤ (fun _ : Fin 1 => (1 : ℚ) / 2) i ∧
      (fun _ : Fin 1 => (1 : ℚ) / 2) i < 1) ∧
    ((∀ i, (dropoutForwardTrain 1 ⟨1, 1 / (1 - 1), none⟩ (fun _ => 1 / 2)
        (fun _ => 5)).2 i = 0) ∧
      (dropoutForwardTrain 1 ⟨1, 1 / (1 - 1), none⟩ (fun _ => 1 / 2)
        (fun _ => 5)).1.grad = some (fun _ => 0) ∧
      dropoutBackward 1 (dropoutForwardTrain 1 ⟨1, 1 / (1 - 1), none⟩
        (fun _ => 1 / 2) (fun _ => 5)).1 (fun _ => 3) = some (fun _ => 0)) := by
  have h1 : dropoutNew 1 1 = some ⟨1, 1 / (1 - 1), none⟩ := by
    unfold dropoutNew
    rw [if_neg (by norm_num)]
  have h2 : ∀ i : Fin 1, 0 ≤ (fun _ : Fin 1 => (1 : ℚ) / 2) i ∧
      (fun _ : Fin 1 => (1 : ℚ) / 2) i < 1 := fun i => ⟨by norm_num, by norm_num⟩
  exact ⟨h1, h2, dropout_rate_one_zeroes_and_backward_succeeds 1
    ⟨1, 1 / (1 - 1), none⟩ (fun _ => 1 / 2) (fun _ => 5) (fun _ => 3) h1 h2⟩

/-- C6: `Dropout::new(drop_rate)` panics exactly when `drop_rate < 0` or
`drop_rate > 1`; in particular both endpoints 0 and 1 construct
successfully. -/
theorem dropout_new_fails_iff_out_of_range (n : ℕ) (p : ℚ) :
    (dropoutNew n p = none ↔ p < 0 ∨ 1 < p) ∧
    (dropoutNew n 0).isSome ∧ (dropoutNew n 1).isSome := by
  refine ⟨?_, ?_, ?_⟩
  · unfold dropoutNew
    by_cases h : p < 0 ∨ 1 < p
    · rw [if_pos h]
      simp [h]
    · rw [if_neg h]
      simp [h]
  · unfold dropoutNew
    rw [if_neg (by norm_num)]
    rfl
  · unfold dropoutNew
    rw [if_neg (by norm_num)]
    rfl

/-! ## Claims C3 and C7 -/

/-- C3: the stateless Dense forward pass is `activation(W·x + b)`, with `W`
shaped `[units, fan_in]`, the product summing over the fan-in axis and the
bias broadcast across the batch; on the spec's concrete test — input
`[[1],[2]]`, identity weights, zero bias, identity activation — the output
is the input, exactly. -/
theorem dense_forward_activation_of_affine :
    (∀ u f n : ℕ, ∀ (d : DenseModel u f n) (act : ℚ → ℚ) (x : Fin f → Fin n → ℚ)
        (i : Fin u) (j : Fin n),
      denseForward u f n d act x i j =
        act ((∑ l, d.weights i l * x l j) + d.biases i)) ∧
    denseForward 2 2 1
        (denseNew 2 2 1 (fun i j => if i = j then 1 else 0) (fun _ => 0)) id
        (fun i _ => if i = 0 then 1 else 2) =
      (fun i _ => if i = 0 then 1 else 2) := by
  constructor
  · intro u f n d act x i j
    rfl
  · funext i j
    unfold denseForward denseNew matMul
    fin_cases i <;> fin_cases j <;> simp [Fin.sum_univ_two]

/-- C7: calling the Dense backward pass on a layer in its
post-construction/post-load state (no cached linear activation or previous
input) hits a `panic!` branch — modelled as `none` — for every upstream
gradient; and after any training-mode forward pass of matching shape the
panic branches are unreachable: backward returns a gradient triple. -/
theorem dense_backward_panics_before_forward_train :
    (∀ u f n : ℕ, ∀ (W : Fin u → Fin f → ℚ) (b : Fin u → ℚ) (actGrad : ℚ → ℚ)
        (dA : Fin u → Fin n → ℚ),
      denseBackward u f n (denseNew u f n W b) actGrad dA = none) ∧
    (∀ u f n : ℕ, ∀ (d : DenseModel u f n) (act actGrad : ℚ → ℚ)
        (x : Fin f → Fin n → ℚ) (dA : Fin u → Fin n → ℚ),
      (denseBackward u f n (denseForwardTrain u f n d act x).1 actGrad dA).isSome) := by
  constructor
  · intro u f n W b actGrad dA
    rfl
  · intro u f n d act actGrad x dA
    rfl

/-! ## Claim C8 -/

/-- C8: for every `fan_in ≥ 1` and `fan_out ≥ 1`, `Initializer::new_tensor`
draws from the stated distribution: GlorotNormal is a normal with mean 0 and
std `√(2/(fan_in+fan_out))`, GlorotUniform a uniform on
`±√(6/(fan_in+fan_out))`, HeNormal std `√(2/fan_in)`, HeUniform limit
`√(6/fan_in)`, LecunNormal std `√(1/fan_in)` and LecunUniform limit
`√(3/fan_in)`; every scale is strictly positive and every distribution is
centered at 0 (normals have mean 0, uniforms are symmetric around 0). -/
theorem initializer_scale_formulas (fanIn fanOut : ℕ)
    (hfi : 1 ≤ fanIn) (hfo : 1 ≤ fanOut) :
    (newTensorDist Initializer.GlorotNormal fanIn fanOut =
        DistDesc.normal 0 (Real.sqrt (2 / ((fanIn : ℝ) + (fanOut : ℝ)))) ∧
      0 < Real.sqrt (2 / ((fanIn : ℝ) + (fanOut : ℝ)))) ∧
    (newTensorDist Initializer.GlorotUniform fanIn fanOut =
        DistDesc.uniform (-(Real.sqrt (6 / ((fanIn : ℝ) + (fanOut : ℝ)))))
          (Real.sqrt (6 / ((fanIn : ℝ) + (fanOut : ℝ)))) ∧
      0 < Real.sqrt (6 / ((fanIn : ℝ) + (fanOut : ℝ)))) ∧
    (newTensorDist Initializer.HeNormal fanIn fanOut =
        DistDesc.normal 0 (Real.sqrt (2 / (fanIn : ℝ))) ∧
      0 < Real.sqrt (2 / (fanIn : ℝ))) ∧
    (newTensorDist Initializer.HeUniform fanIn fanOut =
        DistDesc.uniform (-(Real.sqrt (6 / (fanIn : ℝ)))) (Real.sqrt (6 / (fanIn : ℝ))) ∧
      0 < Real.sqrt (6 / (fanIn : ℝ))) ∧
    (newTensorDist Initializer.LecunNormal fanIn fanOut =
        DistDesc.normal 0 (Real.sqrt (1 / (fanIn : ℝ))) ∧
      0 < Real.sqrt (1 / (fanIn : ℝ))) ∧
    (newTensorDist Initializer.LecunUniform fanIn fanOut =
        DistDesc.uniform (-(Real.sqrt (3 / (fanIn : ℝ)))) (Real.sqrt (3 / (fanIn : ℝ))) ∧
      0 < Real.sqrt (3 / (fanIn : ℝ))) := by
  have hfi' : (1 : ℝ) ≤ (fanIn : ℝ) := by exact_mod_cast hfi
  have hfo' : (0 : ℝ) ≤ (fanOut : ℝ) := Nat.cast_nonneg fanOut
  have hin : (0 : ℝ) < (fanIn : ℝ) := by linarith
  have hsum : (0 : ℝ) < (fanIn : ℝ) + (fanOut : ℝ) := by linarith
  have hcomm : (fanOut : ℝ) + (fanIn : ℝ) = (fanIn : ℝ) + (fanOut : ℝ) := add_comm _ _
  refine ⟨⟨?_, ?_⟩, ⟨?_, ?_⟩, ⟨rfl, ?_⟩, ⟨rfl, ?_⟩, ⟨rfl, ?_⟩, ⟨rfl, ?_⟩⟩
  · unfold newTensorDist
    rw [hcomm]
  · exact Real.sqrt_pos.mpr (div_pos (by norm_num) hsum)
  · unfold newTensorDist
    rw [hcomm]
  · exact Real.sqrt_pos.mpr (div_pos (by norm_num) hsum)
  · exact Real.sqrt_pos.mpr (div_pos (by norm_num) hin)
  · exact Real.sqrt_pos.mpr (div_pos (by norm_num) hin)
  · exact Real.sqrt_pos.mpr (div_pos (by norm_num) hin)
  · exact Real.sqrt_pos.mpr (div_pos (by norm_num) hin)

/-- Witness for `initializer_scale_formulas` at `fan_in = fan_out = 1`. -/
theorem initializer_scale_formulas_witness :
    1 ≤ 1 ∧
    ((newTensorDist Initializer.GlorotNormal 1 1 =
        DistDesc.normal 0 (Real.sqrt (2 / ((1 : ℝ) + (1 : ℝ)))) ∧
      0 < Real.sqrt (2 / ((1 : ℝ) + (1 : ℝ)))) ∧
    (newTensorDist Initializer.GlorotUniform 1 1 =
        DistDesc.uniform (-(Real.sqrt (6 / ((1 : ℝ) + (1 : ℝ)))))
          (Real.sqrt (6 / ((1 : ℝ) + (1 : ℝ)))) ∧
      0 < Real.sqrt (6 / ((1 : ℝ) + (1 : ℝ)))) ∧
    (newTensorDist Initializer.HeNormal 1 1 =
        DistDesc.normal 0 (Real.sqrt (2 / (1 : ℝ))) ∧
      0 < Real.sqrt (2 / (1 : ℝ))) ∧
    (newTensorDist Initializer.HeUniform 1 1 =
        DistDesc.uniform (-(Real.sqrt (6 / (1 : ℝ)))) (Real.sqrt (6 / (1 : ℝ))) ∧
      0 < Real.sqrt (6 / (1 : ℝ))) ∧
    (newTensorDist Initializer.LecunNormal 1 1 =
        DistDesc.normal 0 (Real.sqrt (1 / (1 : ℝ))) ∧
      0 < Real.sqrt (1 / (1 : ℝ))) ∧
    (newTensorDist Initializer.LecunUniform 1 1 =
        DistDesc.uniform (-(Real.sqrt (3 / (1 : ℝ)))) (Real.sqrt (3 / (1 : ℝ))) ∧
      0 < Real.sqrt (3 / (1 : ℝ)))) := by
  have h := initializer_scale_formulas 1 1 (by decide) (by decide)
  rw [Nat.cast_one] at h
  exact ⟨by decide, h⟩

/-! ## Claim C9 -/

/-- C9: the training data is permuted exactly once, inside
`TabularDataSet::from_csv` — training sample `k` of both tensors is raw
sample `perm k`, with the same permutation applied to inputs and targets —
and no reordering ever happens afterwards: every epoch of `fit` runs a
`BatchIterator` over the same unchanged pair, and each epoch's mini-batches
are the identical list of index slices whose concatenation is
`0, …, num_train−1` in order. -/
theorem shuffle_once_at_construction_only (N b epochs : ℕ) (α β : Type)
    (perm : Equiv.Perm (Fin N)) (xs : Fin N → α) (ys : Fin N → β) (da : α) (db : β)
    (validFrac : ℚ) (hb : 1 ≤ b) :
    (∀ k, ∀ hk : k < N,
      (fromCsvTrainPair N α β perm xs ys da db).1 k = xs (perm ⟨k, hk⟩) ∧
      (fromCsvTrainPair N α β perm xs ys da db).2 k = ys (perm ⟨k, hk⟩)) ∧
    (∀ ep ∈ fitSampleSchedule (numTrainSamples N validFrac) b epochs,
      ep = epochBatches (numTrainSamples N validFrac) b ∧
      ep.flatten = List.range (numTrainSamples N validFrac)) := by
  constructor
  · intro k hk
    constructor
    · show (if h : k < N then xs (perm ⟨k, h⟩) else da) = xs (perm ⟨k, hk⟩)
      rw [dif_pos hk]
    · show (if h : k < N then ys (perm ⟨k, h⟩) else db) = ys (perm ⟨k, hk⟩)
      rw [dif_pos hk]
  · intro ep hep
    unfold fitSampleSchedule at hep
    rw [List.mem_map] at hep
    obtain ⟨e, _, hmap⟩ := hep
    refine ⟨hmap.symm, ?_⟩
    rw [← hmap]
    rcases Nat.eq_zero_or_pos (numTrainSamples N validFrac) with h0 | h1
    · rw [h0]
      have hE : effectiveParams 0 b = (0, 1) := by
        unfold effectiveParams
        rw [if_neg (by omega)]
      unfold epochBatches
      rw [hE]
      dsimp only
      rw [List.range_succ, List.range_zero, List.nil_append, List.map_singleton]
      unfold batchOf
      simp
    · obtain ⟨_, _, _, hlast, hcov, _⟩ :=
        effectiveParams_spec (numTrainSamples N validFrac) b h1 hb
      unfold epochBatches
      exact join_batches _ _ _ hlast hcov

/-- Witness for `shuffle_once_at_construction_only`: 2 samples, identity
permutation, batch size 1, 2 epochs, validation fraction 0. -/
theorem shuffle_once_at_construction_only_witness :
    1 ≤ 1 ∧
    ((∀ k, ∀ hk : k < 2,
      (fromCsvTrainPair 2 ℚ ℚ (Equiv.refl (Fin 2)) (fun _ => 0) (fun _ => 0) 0 0).1 k =
        (fun _ : Fin 2 => (0 : ℚ)) ((Equiv.refl (Fin 2)) ⟨k, hk⟩) ∧
      (fromCsvTrainPair 2 ℚ ℚ (Equiv.refl (Fin 2)) (fun _ => 0) (fun _ => 0) 0 0).2 k =
        (fun _ : Fin 2 => (0 : ℚ)) ((Equiv.refl (Fin 2)) ⟨k, hk⟩)) ∧
    (∀ ep ∈ fitSampleSchedule (numTrainSamples 2 0) 1 2,
      ep = epochBatches (numTrainSamples 2 0) 1 ∧
      ep.flatten = List.range (numTrainSamples 2 0))) :=
  ⟨by decide, shuffle_once_at_construction_only 2 1 2 ℚ ℚ (Equiv.refl (Fin 2))
    (fun _ => 0) (fun _ => 0) 0 0 0 (by decide)⟩

/-! ## Claim C10 -/

/-- C10, counterexample.  For a constant feature the per-feature maximum and
minimum coincide, so the denominator `max − min` is zero: with a single
feature holding the single training value 5, the sample attains the
per-feature minimum yet its normalized value is `(5−5)/(5−5) = 0/0 = 0` (a
`0/0` NaN in the source's floating-point arithmetic), not `−1` as the claim
requires of the minimum. -/
theorem normalize_constant_feature_cex :
    maxFeat 1 0 (fun _ _ => 5) 0 = 5 ∧
    minFeat 1 0 (fun _ _ => 5) 0 = 5 ∧
    (fun _ : Fin 1 => fun _ : Fin 1 => (5 : ℚ)) 0 0 = minFeat 1 0 (fun _ _ => 5) 0 ∧
    normalizeTrain 1 0 (fun _ _ => 5) 0 0 = 0 ∧
    normalizeTrain 1 0 (fun _ _ => 5) 0 0 ≠ -1 := by
  have hmax : maxFeat 1 0 (fun _ _ => (5 : ℚ)) 0 = 5 :=
    le_antisymm (Finset.sup'_le _ _ (fun j _ => le_refl 5))
      (Finset.le_sup' ((fun (_ : Fin 1) (_ : Fin (0 + 1)) => (5 : ℚ)) 0)
        (Finset.mem_univ (0 : Fin (0 + 1))))
  have hmin : minFeat 1 0 (fun _ _ => (5 : ℚ)) 0 = 5 :=
    le_antisymm (Finset.inf'_le ((fun (_ : Fin 1) (_ : Fin (0 + 1)) => (5 : ℚ)) 0)
        (Finset.mem_univ (0 : Fin (0 + 1))))
      (Finset.le_inf' _ _ (fun j _ => le_refl 5))
  have hnorm : normalizeTrain 1 0 (fun _ _ => (5 : ℚ)) 0 0 = 0 := by
    unfold normalizeTrain
    rw [hmax, hmin]
    norm_num
  exact ⟨hmax, hmin, by rw [hmin], hnorm, by rw [hnorm]; norm_num⟩

/-- C10 (amended): provided a feature's training maximum strictly exceeds its
training minimum (a non-constant feature), every training value is mapped to
`(x − max)/(max − min)`, which lies in `[−1, 0]`, with values attaining the
per-feature maximum mapped to 0 and values attaining the minimum mapped to
−1; the validation and test sets are transformed with the training set's
`(max, min)` statistics.  (For a constant feature the denominator is zero
and the claimed mapping of the minimum to −1 fails.) -/
theorem normalize_train_range (f n : ℕ) (x : Fin f → Fin (n + 1) → ℚ) (i : Fin f)
    (h : minFeat f n x i < maxFeat f n x i) :
    (∀ j, normalizeTrain f n x i j =
      (x i j - maxFeat f n x i) / (maxFeat f n x i - minFeat f n x i)) ∧
    (∀ j, -1 ≤ normalizeTrain f n x i j ∧ normalizeTrain f n x i j ≤ 0) ∧
    (∀ j, x i j = maxFeat f n x i → normalizeTrain f n x i j = 0) ∧
    (∀ j, x i j = minFeat f n x i → normalizeTrain f n x i j = -1) ∧
    (∀ m : ℕ, ∀ v : Fin f → Fin (m + 1) → ℚ, ∀ j,
      normalizeWithTrainStats f n m x v i j =
        (v i j - maxFeat f n x i) / (maxFeat f n x i - minFeat f n x i)) := by
  have hd : 0 < maxFeat f n x i - minFeat f n x i := sub_pos.mpr h
  refine ⟨fun j => rfl, ?_, ?_, ?_, fun m v j => rfl⟩
  · intro j
    have hx1 : minFeat f n x i ≤ x i j := Finset.inf'_le _ (Finset.mem_univ j)
    have hx2 : x i j ≤ maxFeat f n x i := Finset.le_sup' _ (Finset.mem_univ j)
    constructor
    · unfold normalizeTrain
      rw [le_div_iff₀ hd]
      linarith
    · unfold normalizeTrain
      rw [div_le_iff₀ hd]
      linarith
  · intro j hj
    unfold normalizeTrain
    rw [hj, sub_self, zero_div]
  · intro j hj
    unfold normalizeTrain
    rw [hj, div_eq_iff (ne_of_gt hd)]
    ring

/-- Witness for `normalize_train_range`: one feature, two training samples
0 and 2 (min 0, max 2). -/
theorem normalize_train_range_witness :
    minFeat 1 1 (fun _ j => if j = 0 then 0 else 2) 0 <
      maxFeat 1 1 (fun _ j => if j = 0 then 0 else 2) 0 ∧
    ((∀ j, normalizeTrain 1 1 (fun _ j => if j = 0 then 0 else 2) 0 j =
      ((fun (_ : Fin 1) (j : Fin 2) => if j = 0 then (0 : ℚ) else 2) 0 j -
          maxFeat 1 1 (fun _ j => if j = 0 then 0 else 2) 0) /
        (maxFeat 1 1 (fun _ j => if j = 0 then 0 else 2) 0 -
          minFeat 1 1 (fun _ j => if j = 0 then 0 else 2) 0)) ∧
    (∀ j, -1 ≤ normalizeTrain 1 1 (fun _ j => if j = 0 then 0 else 2) 0 j ∧
      normalizeTrain 1 1 (fun _ j => if j = 0 then 0 else 2) 0 j ≤ 0) ∧
    (∀ j, (fun (_ : Fin 1) (j : Fin 2) => if j = 0 then (0 : ℚ) else 2) 0 j =
        maxFeat 1 1 (fun _ j => if j = 0 then 0 else 2) 0 →
      normalizeTrain 1 1 (fun _ j => if j = 0 then 0 else 2) 0 j = 0) ∧
    (∀ j, (fun (_ : Fin 1) (j : Fin 2) => if j = 0 then (0 : ℚ) else 2) 0 j =
        minFeat 1 1 (fun _ j => if j = 0 then 0 else 2) 0 →
      normalizeTrain 1 1 (fun _ j => if j = 0 then 0 else 2) 0 j = -1) ∧
    (∀ m : ℕ, ∀ v : Fin 1 → Fin (m + 1) → ℚ, ∀ j,
      normalizeWithTrainStats 1 1 m (fun _ j => if j = 0 then 0 else 2) v 0 j =
        (v 0 j - maxFeat 1 1 (fun _ j => if j = 0 then 0 else 2) 0) /
          (maxFeat 1 1 (fun _ j => if j = 0 then 0 else 2) 0 -
            minFeat 1 1 (fun _ j => if j = 0 then 0 else 2) 0))) :=
  ⟨by decide, normalize_train_range 1 1 (fun _ j => if j = 0 then 0 else 2) 0 (by decide)⟩

end Neuro
